import Mathlib

/-!
Verification development for the browser-history backend
(src/server-node.js).  The navigation-history state machine, the URL
validation and normalization helpers, and the query projections are
embedded as executable Lean definitions; the theorems below settle the
specification's claims about them.

Strings are handled through their underlying character lists so that all
definitions evaluate inside the kernel.  JavaScript string helpers used by
the source (trim, startsWith, slice, split) are embedded as character-list
functions with the same semantics.
-/

/-- Character-level test matching the JavaScript string trim: the
whitespace characters removed at both ends. -/
def jsIsSpace (c : Char) : Bool :=
  c = ' ' || c = '\t' || c = '\n' || c = '\r' || c = '\x0b' || c = '\x0c'

/-- Embeds the JavaScript String.prototype.trim over character lists. -/
def trimChars (cs : List Char) : List Char :=
  ((cs.dropWhile jsIsSpace).reverse.dropWhile jsIsSpace).reverse

/-- Embeds url.trim() from the source over Lean strings. -/
def trimStr (s : String) : String :=
  String.mk (trimChars s.data)

/-- Embeds the JavaScript String.prototype.startsWith. -/
def startsWithStr (s p : String) : Bool :=
  p.data.isPrefixOf s.data

/-- Splits a character list at every occurrence of a separator character,
like the JavaScript String.prototype.split with a one-character separator. -/
def splitOnChar (sep : Char) : List Char → List (List Char)
  | [] => [[]]
  | c :: rest =>
    let r := splitOnChar sep rest
    if c = sep then [] :: r
    else
      match r with
      | [] => [[c]]
      | g :: gs => (c :: g) :: gs

/-- Splits a character list at the first occurrence of a separator, when
one is present: the part before it and the part after it. -/
def splitFirst (sep : Char) : List Char → Option (List Char × List Char)
  | [] => none
  | c :: rest =>
    if c = sep then some ([], rest)
    else
      match splitFirst sep rest with
      | none => none
      | some (a, b) => some (c :: a, b)

/-- Characters allowed in a URL scheme after its first letter. -/
def isSchemeChar (c : Char) : Bool :=
  c.isAlpha || c.isDigit || c = '+' || c = '-' || c = '.'

/-- A syntactically well-formed URL scheme: a letter followed by letters,
digits, plus, minus or dot. -/
def schemeOk : List Char → Bool
  | [] => false
  | c :: rest => c.isAlpha && rest.all isSchemeChar

/-- The special URL schemes that require an authority with a host. -/
def isSpecialScheme (scheme : List Char) : Bool :=
  let l := scheme.map Char.toLower
  l = ['h', 't', 't', 'p'] || l = ['h', 't', 't', 'p', 's'] ||
  l = ['f', 't', 'p'] || l = ['w', 's'] || l = ['w', 's', 's']

/-- A well-formed authority for a special scheme: a nonempty host,
optionally followed by a colon and a numeric (possibly empty) port. -/
def authorityOk (auth : List Char) : Bool :=
  match splitOnChar ':' auth with
  | [h] => !h.isEmpty
  | [h, p] => !h.isEmpty && p.all Char.isDigit
  | _ => false

/-- Modelled from the spec: "parse as a well-formed URL per standard URL
syntax rules" (§4.1) refers to the platform URL constructor, which is not
part of this repository.  Simplified standard URL syntax: the input must
have the form scheme ":" remainder with a well-formed scheme, and for the
special schemes (http, https, ftp, ws, wss) the remainder must start with
"//" followed by an authority holding a nonempty host and at most a
numeric port.  Userinfo, IPv6 hosts, the file scheme and percent-encoding
checks are not modelled. -/
def parsesChars (cs : List Char) : Bool :=
  match splitFirst ':' cs with
  | none => false
  | some (scheme, rest) =>
    schemeOk scheme &&
    (if isSpecialScheme scheme then
       ['/', '/'].isPrefixOf rest &&
       authorityOk ((rest.drop 2).takeWhile (fun c => c ≠ '/'))
     else true)

/-- String-level wrapper for the modelled URL parser. -/
def parsesAsUrl (s : String) : Bool :=
  parsesChars s.data

/-- Embeds isValidUrl (src/server-node.js lines 49-56): the candidate is
the input itself when it starts with "http", and the input prefixed with
"https://" otherwise; valid exactly when the candidate parses as a URL. -/
def isValidUrl (string : String) : Bool :=
  parsesAsUrl (if startsWithStr string "http" then string else "https://" ++ string)

/-- Embeds the URL normalization step of POST /api/visit
(src/server-node.js lines 130-136): prepend "https://" unless the string
already starts with "http://" or "https://". -/
def normalizeUrl (trimmedUrl : String) : String :=
  if !(startsWithStr trimmedUrl "http://") && !(startsWithStr trimmedUrl "https://") then
    "https://" ++ trimmedUrl
  else trimmedUrl

/-- Hostname of a parsed URL in the modelled standard URL syntax: for a
special scheme the authority part before any port; empty otherwise;
none when the input does not parse (the constructor throws). -/
def hostOfChars (cs : List Char) : Option (List Char) :=
  if parsesChars cs then
    some
      (match splitFirst ':' cs with
       | some (scheme, rest) =>
         if isSpecialScheme scheme then
           ((splitOnChar ':' ((rest.drop 2).takeWhile (fun c => c ≠ '/'))).headD [])
         else []
       | none => [])
  else none

/-- Embeds getDomainFromUrl (src/server-node.js lines 282-289): hostname
of the URL (prefixed with "https://" when it does not start with "http"),
falling back to the part before the first "/" when parsing fails. -/
def getDomainFromUrl (url : String) : String :=
  let candidate := if startsWithStr url "http" then url else "https://" ++ url
  match hostOfChars candidate.data with
  | some h => String.mk h
  | none => String.mk ((splitOnChar '/' url.data).headD [])

/-- One visited location, as stored in browserHistory.pages
(src/server-node.js lines 139-143). -/
structure Entry where
  url : String
  timestamp : String
  title : String
deriving DecidableEq

/-- The in-memory history state (src/server-node.js lines 22-25). -/
structure BrowserHistory where
  pages : List Entry
  currentIndex : Int
deriving DecidableEq

/-- The initial empty history state (src/server-node.js lines 22-25). -/
def initialHistory : BrowserHistory :=
  { pages := [], currentIndex := -1 }

/-- The data object of a navigation response (the current-state
projection of the spec, §4.3). -/
structure Projection where
  page : String
  canGoBack : Bool
  canGoForward : Bool
  currentIndex : Int
  totalPages : Nat
deriving DecidableEq

/-- Error kinds of the four mutating endpoints: the two 400 responses of
POST /api/visit, the 400 responses of back and forward, and the 500 path. -/
inductive NavError where
  | missingUrl
  | invalidUrl
  | atBeginning
  | atEnd
  | unexpected
deriving DecidableEq

/-- Response of a mutating endpoint: a success payload or an error kind. -/
inductive NavResult where
  | ok (p : Projection)
  | err (e : NavError)
deriving DecidableEq

/-- True exactly on success responses. -/
def NavResult.isOk : NavResult → Bool
  | .ok _ => true
  | .err _ => false

/-- Embeds the JavaScript Array.prototype.slice(0, e): a negative end
counts from the end of the array. -/
def jsSliceTo (l : List Entry) (e : Int) : List Entry :=
  l.take (if e < 0 then ((l.length : Int) + e).toNat else e.toNat)

/-- Embeds the new-page construction of POST /api/visit
(src/server-node.js lines 139-143); the timestamp new Date().toISOString()
is an input of the model. -/
def mkEntry (normalizedUrl timestamp : String) : Entry :=
  { url := normalizedUrl
    timestamp := timestamp
    title := getDomainFromUrl normalizedUrl }

/-- Embeds POST /api/visit (src/server-node.js lines 110-177): reject an
empty url, trim, validate, normalize, truncate the pages after the cursor
when the cursor is not at the end, append the new page and move the cursor
to it. -/
def visit (h : BrowserHistory) (url timestamp : String) : BrowserHistory × NavResult :=
  if url = "" then (h, .err .missingUrl)
  else
    let trimmedUrl := trimStr url
    if !isValidUrl trimmedUrl then (h, .err .invalidUrl)
    else
      let normalizedUrl := normalizeUrl trimmedUrl
      let newPage := mkEntry normalizedUrl timestamp
      let pages1 :=
        if h.currentIndex < (h.pages.length : Int) - 1 then
          jsSliceTo h.pages (h.currentIndex + 1)
        else h.pages
      let pages2 := pages1 ++ [newPage]
      let h2 : BrowserHistory := { pages := pages2, currentIndex := (pages2.length : Int) - 1 }
      (h2,
       .ok
         { page := normalizedUrl
           canGoBack := decide (0 < h2.currentIndex)
           canGoForward := false
           currentIndex := h2.currentIndex
           totalPages := pages2.length })

/-- Embeds POST /api/back (src/server-node.js lines 180-213): fail while
keeping the state when the cursor is at most 0, otherwise decrement the
cursor and answer with the new current page; an out-of-range access after
the decrement is the caught 500 path. -/
def back (h : BrowserHistory) : BrowserHistory × NavResult :=
  if h.currentIndex ≤ 0 then (h, .err .atBeginning)
  else
    let h2 : BrowserHistory := { pages := h.pages, currentIndex := h.currentIndex - 1 }
    match h2.pages[h2.currentIndex.toNat]? with
    | some p =>
      (h2,
       .ok
         { page := p.url
           canGoBack := decide (0 < h2.currentIndex)
           canGoForward := decide (h2.currentIndex < (h2.pages.length : Int) - 1)
           currentIndex := h2.currentIndex
           totalPages := h2.pages.length })
    | none => (h2, .err .unexpected)

/-- Embeds POST /api/forward (src/server-node.js lines 216-249): fail
while keeping the state when the cursor is at least length - 1, otherwise
increment the cursor and answer with the new current page. -/
def forward (h : BrowserHistory) : BrowserHistory × NavResult :=
  if (h.pages.length : Int) - 1 ≤ h.currentIndex then (h, .err .atEnd)
  else
    let h2 : BrowserHistory := { pages := h.pages, currentIndex := h.currentIndex + 1 }
    match h2.pages[h2.currentIndex.toNat]? with
    | some p =>
      (h2,
       .ok
         { page := p.url
           canGoBack := decide (0 < h2.currentIndex)
           canGoForward := decide (h2.currentIndex < (h2.pages.length : Int) - 1)
           currentIndex := h2.currentIndex
           totalPages := h2.pages.length })
    | none => (h2, .err .unexpected)

/-- Embeds DELETE /api/clear (src/server-node.js lines 252-279):
unconditionally reset the state and answer with the empty projection. -/
def clear (_h : BrowserHistory) : BrowserHistory × NavResult :=
  ({ pages := [], currentIndex := -1 },
   .ok
     { page := ""
       canGoBack := false
       canGoForward := false
       currentIndex := -1
       totalPages := 0 })

/-- Embeds GET /api/current (src/server-node.js lines 71-89): the current
page when the cursor is in range, the empty string otherwise, with the
navigability flags derived by comparison. -/
def currentProjection (h : BrowserHistory) : Projection :=
  let currentPage : Option Entry :=
    if 0 ≤ h.currentIndex ∧ h.currentIndex < (h.pages.length : Int) then
      h.pages[h.currentIndex.toNat]?
    else none
  { page :=
      match currentPage with
      | some p => p.url
      | none => ""
    canGoBack := decide (0 < h.currentIndex)
    canGoForward := decide (h.currentIndex < (h.pages.length : Int) - 1)
    currentIndex := h.currentIndex
    totalPages := h.pages.length }

/-- One request to a mutating endpoint; visit carries the raw url and the
timestamp the server would take from its clock. -/
inductive Op where
  | visit (url timestamp : String)
  | back
  | forward
  | clear

/-- The state reached after handling one mutating request. -/
def applyOp (h : BrowserHistory) (op : Op) : BrowserHistory :=
  match op with
  | .visit u t => (visit h u t).1
  | .back => (back h).1
  | .forward => (forward h).1
  | .clear => (clear h).1

/-- The state reached after handling a sequence of mutating requests. -/
def runOps (h : BrowserHistory) (ops : List Op) : BrowserHistory :=
  ops.foldl applyOp h

/-- The history-state invariant of the spec (§3): the cursor stays between
-1 and length - 1, and is -1 on an empty history. -/
def Invariant (h : BrowserHistory) : Prop :=
  -1 ≤ h.currentIndex ∧ h.currentIndex < (h.pages.length : Int) ∧
    (h.pages = [] → h.currentIndex = -1)

instance (h : BrowserHistory) : Decidable (Invariant h) := by
  unfold Invariant; infer_instance

/-- Pages list produced by a successful visit: the retained prefix
followed by the one new entry. -/
def visitPages (h : BrowserHistory) (u t : String) : List Entry :=
  (if h.currentIndex < (h.pages.length : Int) - 1 then
     jsSliceTo h.pages (h.currentIndex + 1)
   else h.pages) ++ [mkEntry (normalizeUrl (trimStr u)) t]

/-- The canGoForward flag of a success response, when there is one. -/
def canGoForwardOf : NavResult → Option Bool
  | .ok p => some p.canGoForward
  | .err _ => none

/-- Modelled from the spec: "a recognizable scheme" (§4.1) - the input
starts with scheme ":" for a syntactically well-formed scheme. -/
def hasRecognizableScheme (s : String) : Bool :=
  match splitFirst ':' s.data with
  | some (scheme, _) => schemeOk scheme
  | none => false

/-- Modelled from the spec: the acceptance condition of the URL
normalizer as §4.1 words it - nonempty input whose trimmed form parses
as a URL, or, when the trimmed form lacks a recognizable scheme, parses
after prefixing "https://". -/
def specAccepts (raw : String) : Bool :=
  (raw != "") &&
    (parsesChars (trimChars raw.data) ||
     (!hasRecognizableScheme (String.mk (trimChars raw.data)) &&
      parsesChars ("https://".data ++ trimChars raw.data)))

/-- Sample entries used by the concrete witness instances below. -/
def pageA : Entry := mkEntry "https://a.com" "t1"

/-- Second sample entry. -/
def pageB : Entry := mkEntry "https://b.com" "t2"

/-- Third sample entry. -/
def pageC : Entry := mkEntry "https://c.com" "t3"

/-- A list is a starting segment of itself followed by anything. -/
lemma isPrefixOf_append (l₁ l₂ : List Char) : l₁.isPrefixOf (l₁ ++ l₂) = true := by
  induction l₁ with
  | nil => simp [List.isPrefixOf]
  | cons c cs ih => simp [List.isPrefixOf, ih]

/-- The state of back collapses to a conditional on the cursor. -/
lemma back_fst (h : BrowserHistory) :
    (back h).1 =
      if h.currentIndex ≤ 0 then h
      else { pages := h.pages, currentIndex := h.currentIndex - 1 } := by
  unfold back
  split
  · rfl
  · dsimp only
    split <;> rfl

/-- Back answers AtBeginning exactly when the cursor is at most 0. -/
lemma back_err_iff (h : BrowserHistory) :
    (back h).2 = .err .atBeginning ↔ h.currentIndex ≤ 0 := by
  unfold back
  split
  · simp_all
  · dsimp only
    split <;> simp_all

/-- The state of forward collapses to a conditional on the cursor. -/
lemma forward_fst (h : BrowserHistory) :
    (forward h).1 =
      if (h.pages.length : Int) - 1 ≤ h.currentIndex then h
      else { pages := h.pages, currentIndex := h.currentIndex + 1 } := by
  unfold forward
  split
  · rfl
  · dsimp only
    split <;> rfl

/-- Forward answers AtEnd exactly when the cursor is at the last entry or
beyond. -/
lemma forward_err_iff (h : BrowserHistory) :
    (forward h).2 = .err .atEnd ↔ (h.pages.length : Int) - 1 ≤ h.currentIndex := by
  unfold forward
  split
  · simp_all
  · dsimp only
    split <;> simp_all

/-- C4: back fails with AtBeginning exactly when the cursor is at most 0
and forward fails with AtEnd exactly when the cursor is at least
length - 1; the failing operation keeps the state and the succeeding one
moves the cursor by exactly one. -/
theorem back_forward_boundary_spec (h : BrowserHistory) :
    ((back h).2 = .err .atBeginning ↔ h.currentIndex ≤ 0)
    ∧ (h.currentIndex ≤ 0 → (back h).1 = h)
    ∧ (0 < h.currentIndex →
        (back h).1 = { pages := h.pages, currentIndex := h.currentIndex - 1 })
    ∧ ((forward h).2 = .err .atEnd ↔ (h.pages.length : Int) - 1 ≤ h.currentIndex)
    ∧ ((h.pages.length : Int) - 1 ≤ h.currentIndex → (forward h).1 = h)
    ∧ (h.currentIndex < (h.pages.length : Int) - 1 →
        (forward h).1 = { pages := h.pages, currentIndex := h.currentIndex + 1 }) := by
  refine ⟨back_err_iff h, ?_, ?_, forward_err_iff h, ?_, ?_⟩
  · intro hc; rw [back_fst, if_pos hc]
  · intro hc; rw [back_fst, if_neg (by omega)]
  · intro hc; rw [forward_fst, if_pos hc]
  · intro hc; rw [forward_fst, if_neg (by omega)]

/-- Witness for C4: on a two-entry history with the cursor on the last
entry, back moves the cursor to 0 and keeps the pages. -/
theorem back_forward_boundary_spec_witness :
    (back { pages := [pageA, pageB], currentIndex := 1 }).1 =
      { pages := [pageA, pageB], currentIndex := 0 } := by
  have := (back_forward_boundary_spec { pages := [pageA, pageB], currentIndex := 1 }).2.2.1
    (by decide)
  simpa using this

/-- C6: clear always resets to the empty initial state and answers with
the empty projection, which is the current-state projection of the state
it produces. -/
theorem clear_resets_spec (h : BrowserHistory) :
    (clear h).1 = initialHistory
    ∧ (clear h).2 =
        .ok { page := "", canGoBack := false, canGoForward := false,
              currentIndex := -1, totalPages := 0 }
    ∧ (clear h).2 = .ok (currentProjection (clear h).1) := by
  exact ⟨rfl, rfl, rfl⟩

/-- C10: on any state whose cursor is out of the entry range - below 0 or
at least the number of entries - the current-state projection still totals
to the empty page string, with the navigability flags computed by the same
comparisons as always. -/
theorem projection_total_out_of_range (h : BrowserHistory)
    (hout : h.currentIndex < 0 ∨ (h.pages.length : Int) ≤ h.currentIndex) :
    (currentProjection h).page = ""
    ∧ (currentProjection h).canGoBack = decide (0 < h.currentIndex)
    ∧ (currentProjection h).canGoForward =
        decide (h.currentIndex < (h.pages.length : Int) - 1)
    ∧ (currentProjection h).currentIndex = h.currentIndex
    ∧ (currentProjection h).totalPages = h.pages.length := by
  unfold currentProjection
  rw [if_neg (by omega)]
  exact ⟨rfl, rfl, rfl, rfl, rfl⟩

/-- Witness for C10: a restored snapshot with one entry and cursor 5 still
projects an empty page, with canGoBack true and canGoForward false. -/
theorem projection_total_out_of_range_witness :
    (currentProjection { pages := [pageA], currentIndex := 5 }).page = ""
    ∧ (currentProjection { pages := [pageA], currentIndex := 5 }).canGoBack =
        decide ((0 : Int) < 5)
    ∧ (currentProjection { pages := [pageA], currentIndex := 5 }).canGoForward =
        decide ((5 : Int) < (([pageA] : List Entry).length : Int) - 1)
    ∧ (currentProjection { pages := [pageA], currentIndex := 5 }).currentIndex = 5
    ∧ (currentProjection { pages := [pageA], currentIndex := 5 }).totalPages = 1 :=
  projection_total_out_of_range { pages := [pageA], currentIndex := 5 } (by decide)

/-- C5: from any invariant state with a positive cursor, back then forward
leaves the pages untouched at every step, restores the state exactly, and
the forward response is the current-state projection of the original
state. -/
theorem back_forward_roundtrip (h : BrowserHistory)
    (hinv : Invariant h) (hc : 0 < h.currentIndex) :
    (back h).1.pages = h.pages
    ∧ (forward (back h).1).1 = h
    ∧ (forward (back h).1).2 = .ok (currentProjection h) := by
  obtain ⟨_, hlt, _⟩ := hinv
  have hb : (back h).1 = { pages := h.pages, currentIndex := h.currentIndex - 1 } := by
    rw [back_fst, if_neg (by omega)]
  have hcl : h.currentIndex.toNat < h.pages.length := by omega
  have hp : h.pages[h.currentIndex.toNat]? = some (h.pages[h.currentIndex.toNat]) :=
    List.getElem?_eq_getElem hcl
  rw [hb]
  unfold forward
  rw [if_neg (by dsimp only; omega)]
  dsimp only
  have hidx : h.currentIndex - 1 + 1 = h.currentIndex := by omega
  rw [hidx, hp]
  refine ⟨rfl, rfl, ?_⟩
  unfold currentProjection
  have hguard : 0 ≤ h.currentIndex ∧ h.currentIndex < (h.pages.length : Int) :=
    ⟨by omega, by omega⟩
  rw [if_pos hguard, hp]

/-- Witness for C5: back then forward on a two-entry history with the
cursor at the end restores the state and reports the original current
projection. -/
theorem back_forward_roundtrip_witness :
    (back { pages := [pageA, pageB], currentIndex := 1 }).1.pages = [pageA, pageB]
    ∧ (forward (back { pages := [pageA, pageB], currentIndex := 1 }).1).1 =
        { pages := [pageA, pageB], currentIndex := 1 }
    ∧ (forward (back { pages := [pageA, pageB], currentIndex := 1 }).1).2 =
        .ok (currentProjection { pages := [pageA, pageB], currentIndex := 1 }) :=
  back_forward_roundtrip { pages := [pageA, pageB], currentIndex := 1 }
    (by decide) (by decide)

/-- Visit of the empty string is rejected without a state change. -/
lemma visit_of_empty (h : BrowserHistory) (u t : String) (hu : u = "") :
    visit h u t = (h, .err .missingUrl) := by
  subst hu; rfl

/-- Visit of an invalid url is rejected without a state change. -/
lemma visit_of_invalid (h : BrowserHistory) (u t : String) (hu : ¬u = "")
    (hv : isValidUrl (trimStr u) = false) :
    visit h u t = (h, .err .invalidUrl) := by
  unfold visit
  rw [if_neg hu]
  dsimp only
  rw [if_pos (by rw [hv]; rfl)]

/-- Visit of a nonempty valid url produces the truncated-and-extended
pages with the cursor on the new last entry, and the success response
built from them. -/
lemma visit_eq_of_valid (h : BrowserHistory) (u t : String) (hu : ¬u = "")
    (hv : isValidUrl (trimStr u) = true) :
    visit h u t =
      ({ pages := visitPages h u t,
         currentIndex := ((visitPages h u t).length : Int) - 1 },
       .ok { page := normalizeUrl (trimStr u),
             canGoBack := decide (0 < ((visitPages h u t).length : Int) - 1),
             canGoForward := false,
             currentIndex := ((visitPages h u t).length : Int) - 1,
             totalPages := (visitPages h u t).length }) := by
  unfold visit visitPages
  rw [if_neg hu]
  dsimp only
  rw [if_neg (by rw [hv]; simp)]

/-- Under the invariant the retained prefix of a successful visit is
exactly the entries up to and including the cursor. -/
lemma visit_pages_inv (h : BrowserHistory) (u t : String) (hinv : Invariant h)
    (hu : ¬u = "") (hv : isValidUrl (trimStr u) = true) :
    (visit h u t).1.pages =
      h.pages.take (h.currentIndex + 1).toNat ++ [mkEntry (normalizeUrl (trimStr u)) t] := by
  obtain ⟨h1, h2, _⟩ := hinv
  rw [visit_eq_of_valid h u t hu hv]
  dsimp only
  unfold visitPages
  congr 1
  split
  · unfold jsSliceTo
    rw [if_neg (by omega)]
  · rw [List.take_of_length_le (by omega)]

/-- C2: from any invariant state, a successful visit keeps exactly the
entries with index at most the cursor, appends the one new entry, puts
the cursor on the new last entry, and reports canGoForward false. -/
theorem visit_truncate_append_spec (h : BrowserHistory) (u t : String)
    (hinv : Invariant h) (hu : ¬u = "") (hv : isValidUrl (trimStr u) = true) :
    (visit h u t).1.pages =
      h.pages.take (h.currentIndex + 1).toNat ++ [mkEntry (normalizeUrl (trimStr u)) t]
    ∧ (visit h u t).1.currentIndex = (((visit h u t).1.pages.length : Int) - 1)
    ∧ canGoForwardOf (visit h u t).2 = some false := by
  refine ⟨visit_pages_inv h u t hinv hu hv, ?_, ?_⟩
  · rw [visit_eq_of_valid h u t hu hv]
  · rw [visit_eq_of_valid h u t hu hv]
    rfl

/-- Witness for C2: visiting from a three-entry history with the cursor
at 0 keeps one entry, appends the new one, and reports canGoForward
false. -/
theorem visit_truncate_append_spec_witness :
    (visit { pages := [pageA, pageB, pageC], currentIndex := 0 } "d.com" "t9").1.pages =
      ([pageA, pageB, pageC] : List Entry).take ((0 : Int) + 1).toNat ++
        [mkEntry (normalizeUrl (trimStr "d.com")) "t9"]
    ∧ (visit { pages := [pageA, pageB, pageC], currentIndex := 0 } "d.com" "t9").1.currentIndex =
        (((visit { pages := [pageA, pageB, pageC], currentIndex := 0 } "d.com" "t9").1.pages.length : Int) - 1)
    ∧ canGoForwardOf (visit { pages := [pageA, pageB, pageC], currentIndex := 0 } "d.com" "t9").2 =
        some false :=
  visit_truncate_append_spec { pages := [pageA, pageB, pageC], currentIndex := 0 }
    "d.com" "t9" (by decide) (by decide) (by decide)

/-- Helper: taking back the length of a taken prefix yields the same
prefix. -/
lemma take_length_take (l : List Entry) (m : Nat) :
    l.take ((l.take m).length) = l.take m := by
  rw [List.length_take, List.take_eq_take]
  omega

/-- C9: back and forward never change the pages, and a successful visit
produces a prefix of the prior pages followed by exactly the one new
entry, so no retained entry is modified. -/
theorem nav_frame_spec (h : BrowserHistory) (u t : String) :
    (back h).1.pages = h.pages
    ∧ (forward h).1.pages = h.pages
    ∧ ((visit h u t).2.isOk = true →
        (visit h u t).1.pages =
          h.pages.take ((visit h u t).1.pages.length - 1) ++
            [mkEntry (normalizeUrl (trimStr u)) t]) := by
  refine ⟨?_, ?_, ?_⟩
  · rw [back_fst]; split <;> rfl
  · rw [forward_fst]; split <;> rfl
  · intro hok
    by_cases hu : u = ""
    · rw [visit_of_empty h u t hu] at hok
      simp [NavResult.isOk] at hok
    by_cases hv : isValidUrl (trimStr u) = true
    · rw [visit_eq_of_valid h u t hu hv]
      dsimp only
      unfold visitPages
      have hpre : ∃ m, (if h.currentIndex < (h.pages.length : Int) - 1 then
          jsSliceTo h.pages (h.currentIndex + 1) else h.pages) = h.pages.take m := by
        split
        · exact ⟨_, rfl⟩
        · exact ⟨h.pages.length, (List.take_length h.pages).symm⟩
      obtain ⟨m, hm⟩ := hpre
      rw [hm]
      rw [List.length_append]
      simp only [List.length_cons, List.length_nil, Nat.add_sub_cancel]
      rw [take_length_take]
    · rw [visit_of_invalid h u t hu (by simpa using hv)] at hok
      simp [NavResult.isOk] at hok

/-- Witness for C9: a successful visit from a two-entry history with the
cursor at 0 keeps the prefix of retained entries unchanged. -/
theorem nav_frame_spec_witness :
    (visit { pages := [pageA, pageB], currentIndex := 0 } "c.com" "t3").1.pages =
      ([pageA, pageB] : List Entry).take
          ((visit { pages := [pageA, pageB], currentIndex := 0 } "c.com" "t3").1.pages.length - 1) ++
        [mkEntry (normalizeUrl (trimStr "c.com")) "t3"] :=
  (nav_frame_spec { pages := [pageA, pageB], currentIndex := 0 } "c.com" "t3").2.2 (by decide)

/-- Counterexample to C7 at the input "httpx.com": it lacks a
recognizable scheme and parses once "https://" is prefixed, so the
spec's acceptance condition holds, yet the code rejects it with
InvalidUrl because its prefixing test is startsWith "http", not scheme
recognition. -/
theorem url_acceptance_counterexample :
    (visit initialHistory "httpx.com" "ts").2 = .err .invalidUrl
    ∧ (visit initialHistory "httpx.com" "ts").1 = initialHistory
    ∧ specAccepts "httpx.com" = true
    ∧ hasRecognizableScheme (trimStr "httpx.com") = false
    ∧ parsesAsUrl ("https://" ++ trimStr "httpx.com") = true := by
  decide

/-- C7 amended: visit rejects exactly the empty input (as missing) and
the inputs whose trimmed form - taken as is when it starts with "http",
prefixed with "https://" otherwise - does not parse as a URL (as
invalid); every rejection keeps the state exactly unchanged. -/
theorem visit_validation_spec (h : BrowserHistory) (u t : String) :
    ((visit h u t).2 = .err .missingUrl ↔ u = "")
    ∧ ((visit h u t).2 = .err .invalidUrl ↔ ¬u = "" ∧ isValidUrl (trimStr u) = false)
    ∧ ((visit h u t).2.isOk = true ↔ ¬u = "" ∧ isValidUrl (trimStr u) = true)
    ∧ ((visit h u t).2.isOk = false → (visit h u t).1 = h)
    ∧ isValidUrl (trimStr u) =
        parsesAsUrl
          (if startsWithStr (trimStr u) "http" then trimStr u
           else "https://" ++ trimStr u) := by
  by_cases hu : u = ""
  · rw [visit_of_empty h u t hu]
    refine ⟨by simp [hu], by simp [hu], by simp [NavResult.isOk, hu], by intro _; rfl, rfl⟩
  by_cases hv : isValidUrl (trimStr u) = true
  · rw [visit_eq_of_valid h u t hu hv]
    refine ⟨by simp; exact hu, by simp [hu, hv], by simp [NavResult.isOk, hu, hv], ?_, rfl⟩
    intro hok
    simp [NavResult.isOk] at hok
  · have hv' : isValidUrl (trimStr u) = false := by simpa using hv
    rw [visit_of_invalid h u t hu hv']
    refine ⟨by simp; exact hu, by simp [hu, hv'], by simp [NavResult.isOk, hu, hv'], by intro _; rfl, rfl⟩

/-- Witness for C7: the nonempty valid input "a.com" is accepted. -/
theorem visit_validation_spec_witness :
    (visit initialHistory "a.com" "t1").2.isOk = true :=
  (visit_validation_spec initialHistory "a.com" "t1").2.2.1.mpr ⟨by decide, by decide⟩

/-- C8: for a valid input whose trimmed form starts with neither
"http://" nor "https://", normalization prepends "https://", so the
result starts with "https://"; a trimmed form already carrying one of
the two schemes is kept as is. -/
theorem normalize_prefix_spec (u : String) (_hne : ¬u = "")
    (_hv : isValidUrl (trimStr u) = true) :
    (startsWithStr (trimStr u) "http://" = false →
     startsWithStr (trimStr u) "https://" = false →
       normalizeUrl (trimStr u) = "https://" ++ trimStr u
       ∧ startsWithStr (normalizeUrl (trimStr u)) "https://" = true)
    ∧ (startsWithStr (trimStr u) "http://" = true ∨
       startsWithStr (trimStr u) "https://" = true →
         normalizeUrl (trimStr u) = trimStr u) := by
  constructor
  · intro h1 h2
    have hn : normalizeUrl (trimStr u) = "https://" ++ trimStr u := by
      unfold normalizeUrl
      rw [if_pos (by rw [h1, h2]; rfl)]
    refine ⟨hn, ?_⟩
    rw [hn]
    unfold startsWithStr
    rw [String.data_append]
    exact isPrefixOf_append _ _
  · intro hor
    unfold normalizeUrl
    rw [if_neg]
    rcases hor with h1 | h1 <;> simp [h1]

/-- Witness for C8: "a.com" is normalized to "https://a.com", which
starts with "https://". -/
theorem normalize_prefix_spec_witness :
    normalizeUrl (trimStr "a.com") = "https://" ++ trimStr "a.com"
    ∧ startsWithStr (normalizeUrl (trimStr "a.com")) "https://" = true :=
  (normalize_prefix_spec "a.com" (by decide) (by decide)).1 (by decide) (by decide)

/-- Back preserves the history-state invariant. -/
lemma invariant_back (h : BrowserHistory) (hinv : Invariant h) :
    Invariant (back h).1 := by
  obtain ⟨h1, h2, h3⟩ := hinv
  rw [back_fst]
  split
  · exact ⟨h1, h2, h3⟩
  · rename_i hc
    refine ⟨by dsimp; omega, by dsimp; omega, ?_⟩
    dsimp
    intro hp
    have hl : h.pages.length = 0 := by rw [hp]; rfl
    omega

/-- Forward preserves the history-state invariant. -/
lemma invariant_forward (h : BrowserHistory) (hinv : Invariant h) :
    Invariant (forward h).1 := by
  obtain ⟨h1, h2, h3⟩ := hinv
  rw [forward_fst]
  split
  · exact ⟨h1, h2, h3⟩
  · rename_i hc
    refine ⟨by dsimp; omega, by dsimp; omega, ?_⟩
    dsimp
    intro hp
    have hl : h.pages.length = 0 := by rw [hp]; rfl
    omega

/-- Visit preserves the history-state invariant. -/
lemma invariant_visit (h : BrowserHistory) (u t : String) (hinv : Invariant h) :
    Invariant (visit h u t).1 := by
  by_cases hu : u = ""
  · rw [visit_of_empty h u t hu]; exact hinv
  by_cases hv : isValidUrl (trimStr u) = true
  · rw [visit_eq_of_valid h u t hu hv]
    have hlen : 1 ≤ (visitPages h u t).length := by
      unfold visitPages
      rw [List.length_append]
      simp
    refine ⟨by dsimp; omega, by dsimp; omega, ?_⟩
    dsimp
    intro hp
    rw [hp] at hlen
    simp at hlen
  · rw [visit_of_invalid h u t hu (by simpa using hv)]; exact hinv

/-- Clear establishes the history-state invariant. -/
lemma invariant_clear (h : BrowserHistory) : Invariant (clear h).1 := by
  unfold clear Invariant
  norm_num

/-- Every single operation preserves the history-state invariant. -/
lemma invariant_applyOp (h : BrowserHistory) (op : Op) (hinv : Invariant h) :
    Invariant (applyOp h op) := by
  cases op with
  | visit u t => exact invariant_visit h u t hinv
  | back => exact invariant_back h hinv
  | forward => exact invariant_forward h hinv
  | clear => exact invariant_clear h

/-- Every sequence of operations preserves the history-state invariant. -/
lemma invariant_runOps (ops : List Op) (h : BrowserHistory) (hinv : Invariant h) :
    Invariant (runOps h ops) := by
  induction ops generalizing h with
  | nil => exact hinv
  | cons op ops ih => exact ih _ (invariant_applyOp h op hinv)

/-- C1: starting from the empty initial state, the invariant - cursor
between -1 and length - 1, and -1 exactly on the empty history - holds
after every sequence of visit, back, forward and clear operations. -/
theorem history_invariant_spec (ops : List Op) :
    Invariant (runOps initialHistory ops) :=
  invariant_runOps ops initialHistory ⟨by decide, by decide, fun _ => rfl⟩

/-- Witness for C1: the invariant holds after a concrete sequence of
operations. -/
theorem history_invariant_spec_witness :
    Invariant (runOps initialHistory
      [Op.visit "a.com" "t1", Op.visit "b.com" "t2", Op.back, Op.clear, Op.forward]) :=
  history_invariant_spec
    [Op.visit "a.com" "t1", Op.visit "b.com" "t2", Op.back, Op.clear, Op.forward]

/-- From an invariant state whose cursor is at least k, k back operations
keep the pages and move the cursor down by exactly k. -/
lemma runOps_replicate_back (k : Nat) (h : BrowserHistory) (hinv : Invariant h)
    (hk : (k : Int) ≤ h.currentIndex) :
    runOps h (List.replicate k .back) =
      { pages := h.pages, currentIndex := h.currentIndex - k } := by
  induction k generalizing h with
  | zero =>
    show h = _
    have h0 : h.currentIndex - ((0 : Nat) : Int) = h.currentIndex := by omega
    rw [h0]
  | succ n ih =>
    obtain ⟨h1, h2, h3⟩ := hinv
    rw [List.replicate_succ]
    have hc : 0 < h.currentIndex := by push_cast at hk; omega
    have hb : (back h).1 = { pages := h.pages, currentIndex := h.currentIndex - 1 } := by
      rw [back_fst, if_neg (by omega)]
    show runOps (applyOp h .back) (List.replicate n .back) = _
    have happ : applyOp h Op.back = (back h).1 := rfl
    rw [happ, hb]
    have hinv' : Invariant { pages := h.pages, currentIndex := h.currentIndex - 1 } := by
      have := invariant_back h ⟨h1, h2, h3⟩
      rwa [hb] at this
    rw [ih _ hinv' (by dsimp; push_cast at hk; omega)]
    have : h.currentIndex - 1 - (n : Int) = h.currentIndex - ((n + 1 : Nat) : Int) := by
      push_cast
      ring
    dsimp
    rw [this]

/-- Counterexample to C3 at a three-entry invariant state with the cursor
at index 2: after two back operations and a visit, the pages keep only the
entry at the post-back cursor plus the new entry, not the entries up to
the pre-back cursor position (under either reading of truncating to
position 2: keeping 2 or keeping 3 entries). -/
theorem back_visit_truncation_counterexample :
    Invariant { pages := [pageA, pageB, pageC], currentIndex := 2 }
    ∧ (visit (runOps { pages := [pageA, pageB, pageC], currentIndex := 2 }
        (List.replicate 2 .back)) "u.com" "t4").1.pages =
        [pageA, mkEntry "https://u.com" "t4"]
    ∧ (visit (runOps { pages := [pageA, pageB, pageC], currentIndex := 2 }
        (List.replicate 2 .back)) "u.com" "t4").1.pages ≠
        ([pageA, pageB, pageC] : List Entry).take 2 ++ [mkEntry "https://u.com" "t4"]
    ∧ (visit (runOps { pages := [pageA, pageB, pageC], currentIndex := 2 }
        (List.replicate 2 .back)) "u.com" "t4").1.pages ≠
        ([pageA, pageB, pageC] : List Entry).take 3 ++ [mkEntry "https://u.com" "t4"] := by
  decide

/-- C3 amended: from an invariant state allowing k successful back
operations, back k times followed by a successful visit yields the
original entries truncated to keep the first cursor - k + 1 of them
(the entries up to the post-back cursor), with the new entry appended. -/
theorem back_visit_truncation_spec (h : BrowserHistory) (k : Nat) (u t : String)
    (hinv : Invariant h) (_hk1 : 1 ≤ k) (hk : (k : Int) ≤ h.currentIndex)
    (hu : ¬u = "") (hv : isValidUrl (trimStr u) = true) :
    (visit (runOps h (List.replicate k .back)) u t).1.pages =
      h.pages.take (h.currentIndex - k + 1).toNat ++
        [mkEntry (normalizeUrl (trimStr u)) t] := by
  obtain ⟨h1, h2, h3⟩ := hinv
  rw [runOps_replicate_back k h ⟨h1, h2, h3⟩ hk]
  have hinv' : Invariant { pages := h.pages, currentIndex := h.currentIndex - k } := by
    refine ⟨by dsimp; omega, by dsimp; omega, ?_⟩
    dsimp
    intro hp
    have hl : h.pages.length = 0 := by rw [hp]; rfl
    omega
  rw [visit_pages_inv _ u t hinv' hu hv]

/-- Witness for C3: the amended truncation law at the state of the
counterexample, keeping cursor - k + 1 = 1 entry. -/
theorem back_visit_truncation_spec_witness :
    (visit (runOps { pages := [pageA, pageB, pageC], currentIndex := 2 }
        (List.replicate 2 .back)) "u.com" "t4").1.pages =
      ([pageA, pageB, pageC] : List Entry).take ((2 : Int) - (2 : Nat) + 1).toNat ++
        [mkEntry (normalizeUrl (trimStr "u.com")) "t4"] :=
  back_visit_truncation_spec { pages := [pageA, pageB, pageC], currentIndex := 2 }
    2 "u.com" "t4" (by decide) (by decide) (by decide) (by decide) (by decide)
